import Mathlib

/-!
Verification of the dsql dynamic SQL statement builder.

The definitions below are a shallow embedding of the repository's Python
sources:

* `dsql.querybuilder` embeds `src/dsql/querybuilder.py` (the statement
  builder used by `src/dsql/manager.py`),
* `dsql.manager` embeds the response-normalization functions of
  `src/dsql/manager.py`,
* `dsql.dbmanager` embeds the relevant helpers of `src/dsql/dbmanager.py`.

Modelling conventions:
* Python values bound as SQL parameters are modelled by `dsql.Value`
  (integers, strings, and lists; only list-ness is ever inspected by the
  code under study).
* Ordered mappings (`OrderedDict`) are modelled as association lists
  `List (String × Value)`, which preserves insertion order exactly as the
  Python code relies on it.
* Python exceptions are modelled with `Except dsql.Err`; each constructor
  of `dsql.Err` names the Python exception class raised at the
  corresponding place in the source.
* Python's `'sep'.join(xs)` is modelled by `pyJoin sep xs`, and Python
  `%`-template instantiation (`'%s' % x` and friends) is modelled by the
  equivalent string concatenation; the `'%s'` parameter placeholders that
  the templates deliberately leave in the SQL text are kept verbatim.
* `str(n)` on an integer is modelled by `toString (n : Int)`.
-/

/-- Number of `%s` positional placeholders in a character list, scanning
left to right (the way a DB-API driver in `format` paramstyle consumes a
statement). -/
def countPHAux : List Char → Nat
  | '%' :: 's' :: r => countPHAux r + 1
  | _ :: r => countPHAux r
  | [] => 0

/-- Number of `%s` positional placeholders in a string. -/
def countPH (s : String) : Nat := countPHAux s.data

/-- Well-placed placeholders: every `%` in the character list is
immediately followed by `s`. All text the builder emits satisfies this,
which makes placeholder counting additive under concatenation. -/
def phOK : List Char → Bool
  | '%' :: 's' :: r => phOK r
  | '%' :: _ => false
  | _ :: r => phOK r
  | [] => true

/-- Python's `sep.join(xs)`. -/
def pyJoin (sep : String) : List String → String
  | [] => ""
  | [s] => s
  | s :: rest => s ++ sep ++ pyJoin sep rest

namespace dsql

/-- The dialect tag accepted by the builders; `manager.py` documents the
set as `"standard" | "mysql" | "mssql" | "postgresql"`. -/
inductive Dialect where
  | standard
  | mysql
  | mssql
  | postgresql
deriving DecidableEq, Repr

/-- Python exception classes raised by the embedded code. -/
inductive Err where
  | exceptionErr   -- bare `Exception` (missing operator in a predicate)
  | valueError     -- `ValueError` (unsupported operator)
  | keyError       -- `KeyError` (dictionary lookup miss, e.g. dialect)
  | nameError      -- `NameError` (reference to an undefined variable)
  | indexError     -- `IndexError` (e.g. `recordlist[0]` on an empty list)
  | typeError      -- `TypeError` (e.g. arithmetic on `None`)
deriving DecidableEq, Repr

/-- A Python value bound as a SQL parameter. The builder only ever
inspects whether a value is a `list`; everything else is opaque. -/
inductive Value where
  | int (n : Int)
  | str (s : String)
  | list (l : List Value)
deriving Repr

/-- An ordered field→value mapping (a Python `OrderedDict`, or the pairs
of a `dict` in insertion order). -/
abbrev Record := List (String × Value)

/-- A condition group: predicate-key → value pairs, AND-ed together. -/
abbrev Condition := List (String × Value)

namespace querybuilder

/-- `querybuilder.quote_identifier` (src/dsql/querybuilder.py:251-256).
The `templates` dict has keys `standard`, `postgresql`, `mysql` only, so
the `mssql` dialect raises `KeyError` at `templates[dialect]`. -/
def quote_identifier (identifier : String) (dialect : Dialect) : Except Err String :=
  match dialect with
  | .standard => .ok ("\"" ++ identifier ++ "\"")
  | .postgresql => .ok ("\"" ++ identifier ++ "\"")
  | .mysql => .ok ("`" ++ identifier ++ "`")
  | .mssql => .error .keyError

/-- The closed operator set of `querybuilder.validate_operator`. -/
def supported_operators : List String :=
  ["=", ">", "<", "!=", "<=", ">=", "in", "not in", "like", "not like"]

/-- `querybuilder.validate_operator` (src/dsql/querybuilder.py:204-212). -/
def validate_operator (op : String) : Except Err String :=
  if op ∈ supported_operators then .ok op else .error .valueError

/-- Split a character list at the first space: Python `s.split(' ', 1)`
restricted to the case where a space is present; `none` when absent. -/
def splitFirstSpace : List Char → Option (List Char × List Char)
  | [] => none
  | ' ' :: rest => some ([], rest)
  | c :: rest =>
    match splitFirstSpace rest with
    | some (a, b) => some (c :: a, b)
    | none => none

/-- A predicate key split into `(fieldname, operator)`; models the
`' ' not in predicate` guard together with `predicate.split(' ', 1)` of
`build_where_clause`. -/
def splitPredicate (predicate : String) : Option (String × String) :=
  match splitFirstSpace predicate.data with
  | some (a, b) => some (String.mk a, String.mk b)
  | none => none

/-- `querybuilder.flatten` (src/dsql/querybuilder.py:259-273): flatten a
list of values, descending only while `level < depth` (for `depth ≠ 0`). -/
def flatten (lst : List Value) (depth : Nat) (level : Nat) : List Value :=
  if depth ≠ 0 ∧ depth = level then lst
  else
    match lst with
    | [] => []
    | .list l :: rest => flatten l depth (level + 1) ++ flatten rest depth level
    | v :: rest => v :: flatten rest depth level
termination_by sizeOf lst
decreasing_by
  all_goals simp_wf
  all_goals omega

/-- The inner `build_condition` of `build_where_clause`
(src/dsql/querybuilder.py:179-193): guard for a missing operator, split
the predicate key, and render `field op placeholders`. For `in`/`not in`
with a list value the placeholder list is `(` + `','.join(['%s']*n)` +
`)`; otherwise a single `%s`. -/
def build_condition (predicate : String) (value : Value) (dialect : Dialect) :
    Except Err String :=
  match splitPredicate predicate with
  | none => .error .exceptionErr
  | some (fieldname, op) => do
    let q ← quote_identifier fieldname dialect
    let vop ← validate_operator op
    let placeholders :=
      match value with
      | .list l =>
        if op = "in" ∨ op = "not in" then
          "(" ++ pyJoin "," (List.replicate l.length "%s") ++ ")"
        else "%s"
      | _ => "%s"
    .ok (q ++ " " ++ vop ++ " " ++ placeholders)

/-- The `' AND '.join(build_condition(...) for ...)` comprehension of
`build_condition_group`, with Python's left-to-right evaluation and
exception propagation. -/
def mapConditions (condition : Condition) (dialect : Dialect) :
    Except Err (List String) :=
  match condition with
  | [] => .ok []
  | (p, v) :: rest => do
    let s ← build_condition p v dialect
    let ss ← mapConditions rest dialect
    .ok (s :: ss)

/-- The `['(%s)' % build_condition_group(condition) for condition in
conditionlist]` comprehension of `build_where_clause`. -/
def buildGroupStrs (conditionlist : List Condition) (dialect : Dialect) :
    Except Err (List String) :=
  match conditionlist with
  | [] => .ok []
  | c :: rest => do
    let parts ← mapConditions c dialect
    let restStrs ← buildGroupStrs rest dialect
    .ok (("(" ++ pyJoin " AND " parts ++ ")") :: restStrs)

/-- The `chain(*(flatten(condition.values(), depth=1) for condition in
conditionlist))` parameter stream of `build_where_clause`. -/
def chainFlatten : List Condition → List Value
  | [] => []
  | c :: rest => flatten (c.map Prod.snd) 1 0 ++ chainFlatten rest

/-- `querybuilder.build_where_clause` (src/dsql/querybuilder.py:149-201). -/
def build_where_clause (conditionlist : List Condition) (keyword : String)
    (dialect : Dialect) : Except Err (String × List Value) :=
  if conditionlist.isEmpty then .ok ("", [])
  else do
    let groups ← buildGroupStrs conditionlist dialect
    let tpl := pyJoin " OR " groups
    let values := chainFlatten conditionlist
    .ok (keyword ++ " " ++ tpl, values)

/-- `querybuilder.build_having_clause` (src/dsql/querybuilder.py:215-216). -/
def build_having_clause (conditionlist : List Condition) (dialect : Dialect) :
    Except Err (String × List Value) :=
  build_where_clause conditionlist "HAVING" dialect

/-- The quoting comprehensions `quote_identifier(x) for x in xs` used by
the SELECT/GROUP BY/INSERT builders. -/
def mapQuote (names : List String) (dialect : Dialect) : Except Err (List String) :=
  match names with
  | [] => .ok []
  | x :: rest => do
    let q ← quote_identifier x dialect
    let qs ← mapQuote rest dialect
    .ok (q :: qs)

/-- `querybuilder.build_select_clause` (src/dsql/querybuilder.py:103-110). -/
def build_select_clause (fieldlist : List String) (dialect : Dialect) :
    Except Err String :=
  if fieldlist = [] then .ok "SELECT *"
  else do
    let qs ← mapQuote fieldlist dialect
    .ok ("SELECT " ++ pyJoin ", " qs)

/-- `querybuilder.build_from_clause` (src/dsql/querybuilder.py:113-114). -/
def build_from_clause (tablename : String) (dialect : Dialect) :
    Except Err String := do
  let q ← quote_identifier tablename dialect
  .ok ("FROM " ++ q)

/-- `querybuilder.build_groupby_clause` (src/dsql/querybuilder.py:219-224). -/
def build_groupby_clause (grouplist : List String) (dialect : Dialect) :
    Except Err String :=
  if grouplist = [] then .ok ""
  else do
    let qs ← mapQuote grouplist dialect
    .ok ("GROUP BY " ++ pyJoin ", " qs)

/-- `querybuilder.build_orderby_clause` (src/dsql/querybuilder.py:227-236).
For an empty `orderlist` the guard returns `''`. For a non-empty
`orderlist` the subclause comprehension iterates over `order`, a name
that is defined nowhere in the module (the parameter is `orderlist`), so
evaluating it raises `NameError` before any rendering happens. -/
def build_orderby_clause (orderlist : List String) (dialect : Dialect) :
    Except Err String :=
  if orderlist = [] then .ok ""
  else .error .nameError

/-- `querybuilder.build_limit_clause` (src/dsql/querybuilder.py:239-248). -/
def build_limit_clause (limit : Int) (offset : Int) (dialect : Dialect) : String :=
  if limit = 0 then ""
  else if dialect = .postgresql then
    "OFFSET " ++ toString offset ++ " LIMIT " ++ toString limit
  else
    "LIMIT " ++ toString offset ++ ", " ++ toString limit

/-- `querybuilder.build_select_stmt` (src/dsql/querybuilder.py:26-45).
Clause evaluation follows the Python order: the WHERE and HAVING pairs
are built first, then the `' '.join` list elements left to right. -/
def build_select_stmt (tablename : String) (fieldlist : List String)
    (whereList : List Condition) (groupby : List String)
    (having : List Condition) (orderby : List String)
    (limit : Int) (offset : Int) (dialect : Dialect) :
    Except Err (String × List Value) := do
  let wherePair ← build_where_clause whereList "WHERE" dialect
  let havingPair ← build_having_clause having dialect
  let sc ← build_select_clause fieldlist dialect
  let fc ← build_from_clause tablename dialect
  let gc ← build_groupby_clause groupby dialect
  let oc ← build_orderby_clause orderby dialect
  let stmt := pyJoin " " [sc, fc, wherePair.1, gc, havingPair.1, oc,
                          build_limit_clause limit offset dialect]
  .ok (stmt, wherePair.2 ++ havingPair.2)

/-- The values stream `chain(*[record.values() for record in recordlist])`
of `build_insert_clause`. -/
def chainValues : List Record → List Value
  | [] => []
  | r :: rest => r.map Prod.snd ++ chainValues rest

/-- `querybuilder.build_insert_clause` (src/dsql/querybuilder.py:117-130).
The column list and the per-tuple placeholder count both come from the
first record only; `recordlist[0]` raises `IndexError` on an empty list.
No cross-record validation of any kind is performed. -/
def build_insert_clause (tablename : String) (recordlist : List Record)
    (dialect : Dialect) : Except Err (String × List Value) := do
  let qt ← quote_identifier tablename dialect
  match recordlist with
  | [] => .error .indexError
  | first :: _ => do
    let qfields ← mapQuote (first.map Prod.fst) dialect
    let tup := "(" ++ pyJoin ", " (List.replicate first.length "%s") ++ ")"
    let tpl := "INSERT INTO " ++ qt ++ "(" ++ pyJoin ", " qfields ++ ") VALUES "
                 ++ pyJoin ", " (List.replicate recordlist.length tup)
    .ok (tpl, chainValues recordlist)

/-- `querybuilder.build_insert_stmt` (src/dsql/querybuilder.py:48-57). -/
def build_insert_stmt (tablename : String) (recordlist : List Record)
    (dialect : Dialect) : Except Err (String × List Value) := do
  let pair ← build_insert_clause tablename recordlist dialect
  .ok (if dialect = .postgresql then pair.1 ++ " returning id" else pair.1, pair.2)

/-- The `'%s=%%s' % quote_identifier(fieldname)` comprehension of
`build_update_clause`. -/
def mapSetExprs (recordpatch : Record) (dialect : Dialect) :
    Except Err (List String) :=
  match recordpatch with
  | [] => .ok []
  | (f, _) :: rest => do
    let q ← quote_identifier f dialect
    let qs ← mapSetExprs rest dialect
    .ok ((q ++ "=%s") :: qs)

/-- `querybuilder.build_update_clause` (src/dsql/querybuilder.py:133-142). -/
def build_update_clause (tablename : String) (recordpatch : Record)
    (dialect : Dialect) : Except Err (String × List Value) := do
  let qt ← quote_identifier tablename dialect
  let sets ← mapSetExprs recordpatch dialect
  .ok ("UPDATE " ++ qt ++ " SET " ++ pyJoin ", " sets, recordpatch.map Prod.snd)

/-- `querybuilder.build_update_stmt` (src/dsql/querybuilder.py:60-77). -/
def build_update_stmt (tablename : String) (recordpatch : Record)
    (whereList : List Condition) (orderby : List String)
    (limit : Int) (offset : Int) (dialect : Dialect) :
    Except Err (String × List Value) := do
  let updatePair ← build_update_clause tablename recordpatch dialect
  let wherePair ← build_where_clause whereList "WHERE" dialect
  let oc ← build_orderby_clause orderby dialect
  let stmt := pyJoin " " [updatePair.1, wherePair.1, oc,
                          build_limit_clause limit offset dialect]
  .ok (stmt, updatePair.2 ++ wherePair.2)

/-- `querybuilder.build_delete_stmt` (src/dsql/querybuilder.py:80-96).
`build_limit_clause` is called with the default `offset=0`. -/
def build_delete_stmt (tablename : String) (whereList : List Condition)
    (orderby : List String) (limit : Int) (dialect : Dialect) :
    Except Err (String × List Value) := do
  let wherePair ← build_where_clause whereList "WHERE" dialect
  let fc ← build_from_clause tablename dialect
  let oc ← build_orderby_clause orderby dialect
  let stmt := pyJoin " " ["DELETE", fc, wherePair.1, oc,
                          build_limit_clause limit 0 dialect]
  .ok (stmt, wherePair.2)

/-- `querybuilder.build_raw_stmt` (src/dsql/querybuilder.py:99-100): pure
passthrough. -/
def build_raw_stmt (stmt : String) (params : List Value) (dialect : Dialect) :
    String × List Value :=
  (stmt, params)

end querybuilder

namespace manager

/-- The driver cursor surface consumed by `manager.py`'s response
handlers: a nullable last-generated identifier (`None` ↦ `none`, an
integer otherwise), the affected-row count, whether column metadata
(`cursor.description`) is present, and the result rows (each row a list
of column values, in order). -/
structure Cursor where
  lastrowid : Option Int
  rowcount : Int
  description : Bool
  rows : List (List Value)

/-- The three normalized response shapes of `manager.handle_response`. -/
inductive Response where
  | rows (items : List (List Value))
  | ids (l : List Value)
  | count (n : Int)

/-- Python truthiness of `cursor.lastrowid`: `None` and `0` are falsy. -/
def lastrowidTruthy : Option Int → Bool
  | none => false
  | some n => n ≠ 0

/-- Python's `range(a, b)` over integers. -/
def rangeInt (a b : Int) : List Int :=
  (List.range (b - a).toNat).map (fun i : Nat => a + (i : Int))

/-- The `[record[0] for record in cursor]` comprehension of
`handle_insert_response` (`record[0]` raises `IndexError` on an empty
row). -/
def firstColumns : List (List Value) → Except Err (List Value)
  | [] => .ok []
  | r :: rest =>
    match r with
    | [] => .error .indexError
    | v :: _ => do
      let vs ← firstColumns rest
      .ok (v :: vs)

/-- `manager.handle_insert_response` (src/dsql/manager.py:131-147):
PostgreSQL collects the first column of each RETURNING row; MySQL
synthesizes `range(lastrowid, lastrowid + rowcount)`; every other
dialect synthesizes `range(lastrowid - rowcount, lastrowid)`. Arithmetic
on a `None` identifier would raise `TypeError` in Python. -/
def handle_insert_response (cursor : Cursor) (dialect : Dialect) :
    Except Err Response :=
  if dialect = .postgresql then do
    let firsts ← firstColumns cursor.rows
    .ok (.ids firsts)
  else
    match cursor.lastrowid with
    | none => .error .typeError
    | some lastId =>
      if dialect = .mysql then
        .ok (.ids ((rangeInt lastId (lastId + cursor.rowcount)).map Value.int))
      else
        .ok (.ids ((rangeInt (lastId - cursor.rowcount) lastId).map Value.int))

/-- `manager.handle_select_response` (src/dsql/manager.py:109-128): the
cursor's row sequence is returned as-is at this level of modelling (the
dict-normalization step changes only the per-row representation, not the
sequence of rows). -/
def handle_select_response (cursor : Cursor) (dialect : Dialect) : Response :=
  .rows cursor.rows

/-- `manager.handle_other_response` (src/dsql/manager.py:150-151). -/
def handle_other_response (cursor : Cursor) (dialect : Dialect) : Response :=
  .count cursor.rowcount

/-- `manager.handle_response` (src/dsql/manager.py:96-106): dispatch on
the truthiness of `cursor.lastrowid`, then on `cursor.description`. -/
def handle_response (cursor : Cursor) (dialect : Dialect) : Except Err Response :=
  if lastrowidTruthy cursor.lastrowid then handle_insert_response cursor dialect
  else if cursor.description then .ok (handle_select_response cursor dialect)
  else .ok (handle_other_response cursor dialect)

end manager

namespace dbmanager

/-- `dbmanager.quote_identifier` (src/dsql/dbmanager.py:244-250): this
older variant's `templates` dict covers all four dialects, including
`mssql` with bracket wrapping. -/
def quote_identifier (identifier : String) (dialect : Dialect) : String :=
  match dialect with
  | .standard => "\"" ++ identifier ++ "\""
  | .postgresql => "\"" ++ identifier ++ "\""
  | .mysql => "`" ++ identifier ++ "`"
  | .mssql => "[" ++ identifier ++ "]"

/-- `dbmanager.build_order_expr` (src/dsql/dbmanager.py:364-372): the
working ordering renderer of the older variant — a leading `-` is
stripped (`lstrip('-')`) before quoting and selects `DESC`, otherwise
`ASC` (`fieldname[0]` raises `IndexError` on an empty name). -/
def build_order_expr (order : List String) (dialect : Dialect) :
    Except Err String :=
  if order = [] then .ok ""
  else do
    let clauses ← mapOrder order dialect
    .ok ("ORDER BY " ++ pyJoin ", " clauses)
where
  mapOrder : List String → Dialect → Except Err (List String)
    | [], _ => .ok []
    | fieldname :: rest, d =>
      match fieldname.data with
      | [] => .error .indexError
      | c :: _ => do
        let restClauses ← mapOrder rest d
        .ok ((quote_identifier (String.mk (fieldname.data.dropWhile (· = '-'))) d
               ++ " " ++ (if c = '-' then "DESC" else "ASC")) :: restClauses)

end dbmanager

/-- Side condition on a predicate-key/value pair under which placeholder
parity can hold: the key carries no `%` character (it is interpolated
into the SQL text), and a list value is only used with the `in`/`not in`
operators (for any other operator the builder emits one placeholder but
splices all the list's elements into the parameter stream). -/
def pairOKb : String × Value → Bool
  | (p, v) =>
    !(p.data.contains '%') &&
    (match v with
     | Value.list _ =>
       (match querybuilder.splitPredicate p with
        | some (_, op) => op == "in" || op == "not in"
        | none => true)
     | _ => true)

/-- All pairs of a condition group satisfy `pairOKb`. -/
def condOKb (c : Condition) : Bool := c.all pairOKb

/-- All condition groups of a WHERE/HAVING condition set satisfy
`condOKb`. -/
def whereOKb (cl : List Condition) : Bool := cl.all condOKb

/-- How many parameters a predicate value contributes to the stream
after `flatten(..., depth=1)`: a list is spliced (its length), anything
else is one opaque parameter. -/
def valueContrib : Value → Nat
  | .list l => l.length
  | _ => 1

/-- Total parameter contribution of one condition group. -/
def condContrib (c : Condition) : Nat := (c.map (fun pv => valueContrib pv.2)).sum

/-- All records of an insert batch have as many fields as the first
record (what the builder's placeholder layout implicitly assumes). -/
def sameLenB : List Record → Bool
  | [] => true
  | r :: rest => rest.all (fun x => x.length == r.length)

end dsql

theorem phOK_count (a : List Char) (h : phOK a = true) : countPHAux a = a.count '%' := by
  induction a using phOK.induct with
  | case1 r ih => simp [phOK] at h; simp [countPHAux, List.count_cons, ih h]
  | case2 rest h2 => simp [phOK] at h
  | case3 c rest hne hc ih =>
    have hc' : ¬ c = '%' := fun he => hc he
    simp [phOK, hc'] at h
    simp [countPHAux, hc', List.count_cons, ih h]
  | case4 => rfl

theorem phOK_append (a b : List Char) (ha : phOK a = true) (hb : phOK b = true) :
    phOK (a ++ b) = true := by
  induction a using phOK.induct with
  | case1 r ih => simp only [phOK, List.cons_append] at ha ⊢; exact ih ha
  | case2 rest h2 => simp [phOK] at ha
  | case3 c rest hne hc ih =>
    have hc' : ¬ c = '%' := fun he => hc he
    rw [List.cons_append, phOK.eq_3 _ _ (fun r1 h1 h2 => hc' h1) hc]
    rw [phOK.eq_3 _ _ hne hc] at ha
    exact ih ha
  | case4 => simpa using hb

theorem phOK_nopct (a : List Char) (h : '%' ∉ a) : phOK a = true := by
  induction a with
  | nil => rfl
  | cons c rest ih =>
    have hc : ¬ c = '%' := fun he => h (he ▸ List.mem_cons_self c rest)
    have hr : '%' ∉ rest := fun hm => h (List.mem_cons_of_mem _ hm)
    rw [phOK.eq_3 _ _ (fun r1 h1 _ => hc h1) hc]
    exact ih hr

theorem count_nopct (a : List Char) (h : '%' ∉ a) : a.count '%' = 0 :=
  List.count_eq_zero.mpr h

theorem phOK_str_append (a b : String) (ha : phOK a.data = true)
    (hb : phOK b.data = true) : phOK (a ++ b).data = true := by
  rw [String.data_append]
  exact phOK_append _ _ ha hb

theorem count_str_append (a b : String) :
    (a ++ b).data.count '%' = a.data.count '%' + b.data.count '%' := by
  rw [String.data_append, List.count_append]

theorem nopct_str_append (a b : String) (ha : '%' ∉ a.data) (hb : '%' ∉ b.data) :
    '%' ∉ (a ++ b).data := by
  rw [String.data_append]
  intro hm
  rcases List.mem_append.mp hm with hm | hm
  · exact ha hm
  · exact hb hm

theorem digitChar_ne_pct (n : Nat) : Nat.digitChar n ≠ '%' := by
  by_cases h : n < 16
  · interval_cases n <;> decide
  · have h0 : n ≠ 0 := by omega
    have h1 : n ≠ 1 := by omega
    have h2 : n ≠ 2 := by omega
    have h3 : n ≠ 3 := by omega
    have h4 : n ≠ 4 := by omega
    have h5 : n ≠ 5 := by omega
    have h6 : n ≠ 6 := by omega
    have h7 : n ≠ 7 := by omega
    have h8 : n ≠ 8 := by omega
    have h9 : n ≠ 9 := by omega
    have h10 : n ≠ 10 := by omega
    have h11 : n ≠ 11 := by omega
    have h12 : n ≠ 12 := by omega
    have h13 : n ≠ 13 := by omega
    have h14 : n ≠ 14 := by omega
    have h15 : n ≠ 15 := by omega
    simp [Nat.digitChar, h0, h1, h2, h3, h4, h5, h6, h7, h8, h9, h10, h11, h12,
          h13, h14, h15]

theorem toDigitsCore_nopct (fuel n : Nat) (ds : List Char) (h : '%' ∉ ds) :
    '%' ∉ Nat.toDigitsCore 10 fuel n ds := by
  induction fuel generalizing n ds with
  | zero => simpa [Nat.toDigitsCore] using h
  | succ fuel ih =>
    rw [Nat.toDigitsCore]
    split
    · intro hm
      rcases List.mem_cons.mp hm with he | hm2
      · exact digitChar_ne_pct _ he.symm
      · exact h hm2
    · apply ih
      intro hm
      rcases List.mem_cons.mp hm with he | hm2
      · exact digitChar_ne_pct _ he.symm
      · exact h hm2

theorem intRepr_nopct (i : Int) : '%' ∉ (toString i).data := by
  show '%' ∉ (Int.repr i).data
  match i with
  | Int.ofNat m =>
    simpa [Int.repr, Nat.repr, Nat.toDigits, List.asString] using
      toDigitsCore_nopct (m + 1) m [] (by simp)
  | Int.negSucc m =>
    simp [Int.repr, Nat.repr, Nat.toDigits, List.asString]
    exact toDigitsCore_nopct (m + 2) (m + 1) [] (by simp)

theorem pyJoin_count (sep : String) (l : List String) (hsep : '%' ∉ sep.data) :
    (pyJoin sep l).data.count '%' = (l.map (fun s => s.data.count '%')).sum := by
  induction l with
  | nil => simp [pyJoin]
  | cons s rest ih =>
    cases rest with
    | nil => simp [pyJoin]
    | cons s2 r2 =>
      have hstep : pyJoin sep (s :: s2 :: r2) = s ++ sep ++ pyJoin sep (s2 :: r2) := rfl
      rw [hstep, count_str_append, count_str_append, count_nopct _ hsep, ih]
      simp [Nat.add_assoc]

theorem pyJoin_phOK (sep : String) (l : List String) (hsep : phOK sep.data = true)
    (h : ∀ s ∈ l, phOK s.data = true) : phOK (pyJoin sep l).data = true := by
  induction l with
  | nil => rfl
  | cons s rest ih =>
    cases rest with
    | nil => exact h s (List.mem_cons_self _ _)
    | cons s2 r2 =>
      have hstep : pyJoin sep (s :: s2 :: r2) = s ++ sep ++ pyJoin sep (s2 :: r2) := rfl
      rw [hstep]
      apply phOK_str_append
      · exact phOK_str_append _ _ (h s (List.mem_cons_self _ _)) hsep
      · exact ih (fun x hx => h x (List.mem_cons_of_mem _ hx))

theorem pyJoin_nopct (sep : String) (l : List String) (hsep : '%' ∉ sep.data)
    (h : ∀ s ∈ l, '%' ∉ s.data) : '%' ∉ (pyJoin sep l).data := by
  induction l with
  | nil => simp [pyJoin]
  | cons s rest ih =>
    cases rest with
    | nil => exact h s (List.mem_cons_self _ _)
    | cons s2 r2 =>
      have hstep : pyJoin sep (s :: s2 :: r2) = s ++ sep ++ pyJoin sep (s2 :: r2) := rfl
      rw [hstep]
      apply nopct_str_append
      · exact nopct_str_append _ _ (h s (List.mem_cons_self _ _)) hsep
      · exact ih (fun x hx => h x (List.mem_cons_of_mem _ hx))

open dsql dsql.querybuilder

theorem quote_ok_nopct (i : String) (d : Dialect) (q : String)
    (hok : quote_identifier i d = .ok q) (h : '%' ∉ i.data) : '%' ∉ q.data := by
  cases d <;> simp [quote_identifier] at hok <;> subst hok <;>
    apply nopct_str_append <;> try apply nopct_str_append
  all_goals first | exact h | decide

theorem validate_ok (op vop : String) (hok : validate_operator op = .ok vop) :
    vop = op ∧ op ∈ supported_operators := by
  unfold validate_operator at hok
  split at hok
  · exact ⟨(Except.ok.injEq _ _).mp hok |>.symm, by assumption⟩
  · exact absurd hok (by simp)

theorem supported_nopct (op : String) (h : op ∈ supported_operators) :
    '%' ∉ op.data := by
  simp [supported_operators] at h
  rcases h with rfl | rfl | rfl | rfl | rfl | rfl | rfl | rfl | rfl | rfl <;> decide

theorem splitFirstSpace_left_sub (s a b : List Char)
    (hs : splitFirstSpace s = some (a, b)) : ∀ c ∈ a, c ∈ s := by
  induction s generalizing a b with
  | nil => simp [splitFirstSpace] at hs
  | cons c0 rest ih =>
    by_cases hsp : c0 = ' '
    · subst hsp
      simp [splitFirstSpace] at hs
      simp [hs.1]
    · rw [splitFirstSpace.eq_3 _ _ hsp] at hs
      cases hrec : splitFirstSpace rest with
      | none => rw [hrec] at hs; simp at hs
      | some p =>
        rw [hrec] at hs
        simp at hs
        rcases hs with ⟨ha, hb⟩
        intro c hc
        rw [← ha] at hc
        rcases List.mem_cons.mp hc with rfl | hc2
        · exact List.mem_cons_self _ _
        · exact List.mem_cons_of_mem _ (ih p.1 p.2 (by simp [hrec]) c hc2)

theorem splitPredicate_field_nopct (p f op : String)
    (hs : splitPredicate p = some (f, op)) (h : '%' ∉ p.data) : '%' ∉ f.data := by
  unfold splitPredicate at hs
  cases hrec : splitFirstSpace p.data with
  | none => rw [hrec] at hs; simp at hs
  | some q =>
    rw [hrec] at hs
    simp at hs
    obtain ⟨hf, hop⟩ := hs
    intro hm
    apply h
    have hq : splitFirstSpace p.data = some (q.1, q.2) := by rw [hrec]
    refine splitFirstSpace_left_sub _ _ _ hq '%' ?_
    rw [← hf] at hm
    exact hm

theorem flatten_nil_d1 : flatten [] 1 0 = [] := by
  rw [flatten.eq_def]
  simp

theorem flatten_cons_d1 (v : Value) (rest : List Value) :
    flatten (v :: rest) 1 0 =
      (match v with
       | Value.list l => l
       | v => [v]) ++ flatten rest 1 0 := by
  rw [flatten.eq_def]
  cases v with
  | list l =>
    simp only [List.cons_append]
    rw [if_neg (by simp)]
    rw [flatten.eq_def]
    simp
  | int n => rw [if_neg (by simp)]; simp
  | str s => rw [if_neg (by simp)]; simp

theorem flatten_d1_len (vs : List Value) :
    (flatten vs 1 0).length = (vs.map valueContrib).sum := by
  induction vs with
  | nil => simp [flatten_nil_d1]
  | cons v rest ih =>
    rw [flatten_cons_d1]
    cases v <;> simp [valueContrib, ih] <;> omega

theorem chainFlatten_len (cl : List Condition) :
    (chainFlatten cl).length = (cl.map condContrib).sum := by
  induction cl with
  | nil => simp [chainFlatten]
  | cons c rest ih =>
    simp only [chainFlatten, List.length_append, List.map_cons, List.sum_cons, ih]
    congr 1
    rw [flatten_d1_len, condContrib, List.map_map]
    rfl

theorem pairOKb_unpack (p : String) (v : Value) (h : pairOKb (p, v) = true) :
    '%' ∉ p.data ∧
    (∀ l f op, v = Value.list l → splitPredicate p = some (f, op) →
        op = "in" ∨ op = "not in") := by
  unfold pairOKb at h
  rw [Bool.and_eq_true] at h
  constructor
  · intro hm
    have h1 := h.1
    simp at h1
    exact h1 hm
  · intro l f op hv hsp
    subst hv
    rw [hsp] at h
    have := h.2
    simp at this
    rcases this with h1 | h1
    · exact Or.inl h1
    · exact Or.inr h1

theorem inPlaceholders_stats (n : Nat) :
    phOK ("(" ++ pyJoin "," (List.replicate n "%s") ++ ")").data = true ∧
    ("(" ++ pyJoin "," (List.replicate n "%s") ++ ")").data.count '%' = n := by
  constructor
  · apply phOK_str_append
    · apply phOK_str_append
      · rfl
      · apply pyJoin_phOK
        · rfl
        · intro s hs
          rw [List.eq_of_mem_replicate hs]
          rfl
    · rfl
  · rw [count_str_append, count_str_append, pyJoin_count _ _ (by decide)]
    have hmap : (List.replicate n "%s").map (fun s => s.data.count '%') =
        List.replicate n 1 := by
      rw [List.map_replicate]
      rw [show List.count '%' "%s".data = 1 from rfl]
    rw [hmap, List.sum_replicate]
    simp

theorem condStr_stats (q op ph : String) (hq : '%' ∉ q.data) (hop : '%' ∉ op.data)
    (hph : phOK ph.data = true) :
    phOK (q ++ " " ++ op ++ " " ++ ph).data = true ∧
    (q ++ " " ++ op ++ " " ++ ph).data.count '%' = ph.data.count '%' := by
  constructor
  · apply phOK_str_append
    · apply phOK_str_append
      · apply phOK_str_append
        · apply phOK_str_append
          · exact phOK_nopct _ hq
          · rfl
        · exact phOK_nopct _ hop
      · rfl
    · exact hph
  · rw [count_str_append, count_str_append, count_str_append, count_str_append]
    rw [count_nopct _ hq, count_nopct _ hop]
    rw [show List.count '%' " ".data = 0 from rfl]
    omega

theorem build_condition_stats (p : String) (v : Value) (d : Dialect) (s : String)
    (hok : build_condition p v d = .ok s) (hpct : '%' ∉ p.data)
    (hlist : ∀ l f op, v = Value.list l → splitPredicate p = some (f, op) →
        op = "in" ∨ op = "not in") :
    phOK s.data = true ∧ s.data.count '%' = valueContrib v := by
  unfold build_condition at hok
  split at hok
  · simp at hok
  · rename_i f op hsp
    cases hq : quote_identifier f d with
    | error e => rw [hq] at hok; simp [Bind.bind, Except.bind] at hok
    | ok q =>
      rw [hq] at hok
      cases hv : validate_operator op with
      | error e => rw [hv] at hok; simp [Bind.bind, Except.bind] at hok
      | ok vop =>
        rw [hv] at hok
        simp [Bind.bind, Except.bind] at hok
        obtain ⟨hvo, hmem⟩ := validate_ok op vop hv
        subst hvo
        have hqn : '%' ∉ q.data :=
          quote_ok_nopct f d q hq (splitPredicate_field_nopct p f vop hsp hpct)
        have hopn : '%' ∉ vop.data := supported_nopct vop hmem
        subst hok
        cases v with
        | list l =>
          have hio := hlist l f vop rfl hsp
          simp only [if_pos hio]
          have hps := inPlaceholders_stats l.length
          have hcs := condStr_stats q vop _ hqn hopn hps.1
          exact ⟨hcs.1, by rw [hcs.2, hps.2]; rfl⟩
        | int n =>
          have hcs := condStr_stats q vop "%s" hqn hopn (by rfl)
          exact ⟨hcs.1, by rw [hcs.2]; rfl⟩
        | str s2 =>
          have hcs := condStr_stats q vop "%s" hqn hopn (by rfl)
          exact ⟨hcs.1, by rw [hcs.2]; rfl⟩

theorem mapConditions_stats (c : Condition) (d : Dialect) (ss : List String)
    (hok : mapConditions c d = .ok ss) (hc : condOKb c = true) :
    (∀ s ∈ ss, phOK s.data = true) ∧
    (ss.map (fun s => s.data.count '%')).sum = condContrib c := by
  induction c generalizing ss with
  | nil =>
    unfold mapConditions at hok
    simp at hok
    subst hok
    simp [condContrib]
  | cons pv rest ih =>
    obtain ⟨p, v⟩ := pv
    unfold mapConditions at hok
    cases h1 : build_condition p v d with
    | error e => rw [h1] at hok; simp [Bind.bind, Except.bind] at hok
    | ok s1 =>
      rw [h1] at hok
      cases h2 : mapConditions rest d with
      | error e => rw [h2] at hok; simp [Bind.bind, Except.bind] at hok
      | ok ss1 =>
        rw [h2] at hok
        simp [Bind.bind, Except.bind] at hok
        subst hok
        rw [condOKb, List.all_cons, Bool.and_eq_true] at hc
        have hpair := pairOKb_unpack p v hc.1
        have hstats := build_condition_stats p v d s1 h1 hpair.1 hpair.2
        have hrest := ih ss1 h2 hc.2
        constructor
        · intro s hs
          rcases List.mem_cons.mp hs with rfl | hs2
          · exact hstats.1
          · exact hrest.1 s hs2
        · simp only [List.map_cons, List.sum_cons, hstats.2, hrest.2,
                     condContrib, List.map_cons, List.sum_cons]

theorem buildGroupStrs_stats (cl : List Condition) (d : Dialect) (gs : List String)
    (hok : buildGroupStrs cl d = .ok gs) (hcl : whereOKb cl = true) :
    (∀ g ∈ gs, phOK g.data = true) ∧
    (gs.map (fun s => s.data.count '%')).sum = (cl.map condContrib).sum := by
  induction cl generalizing gs with
  | nil =>
    unfold buildGroupStrs at hok
    simp at hok
    subst hok
    simp
  | cons c rest ih =>
    unfold buildGroupStrs at hok
    cases h1 : mapConditions c d with
    | error e => rw [h1] at hok; simp [Bind.bind, Except.bind] at hok
    | ok parts =>
      rw [h1] at hok
      cases h2 : buildGroupStrs rest d with
      | error e => rw [h2] at hok; simp [Bind.bind, Except.bind] at hok
      | ok gs1 =>
        rw [h2] at hok
        simp [Bind.bind, Except.bind] at hok
        subst hok
        rw [whereOKb, List.all_cons, Bool.and_eq_true] at hcl
        have hparts := mapConditions_stats c d parts h1 hcl.1
        have hrest := ih gs1 h2 hcl.2
        have hjoin_ph : phOK (pyJoin " AND " parts).data = true :=
          pyJoin_phOK _ _ (by rfl) hparts.1
        have hjoin_cnt : (pyJoin " AND " parts).data.count '%' = condContrib c := by
          rw [pyJoin_count _ _ (by decide), hparts.2]
        constructor
        · intro g hg
          rcases List.mem_cons.mp hg with rfl | hg2
          · apply phOK_str_append
            · apply phOK_str_append
              · rfl
              · exact hjoin_ph
            · rfl
          · exact hrest.1 g hg2
        · simp only [List.map_cons, List.sum_cons]
          rw [count_str_append, count_str_append, hjoin_cnt, hrest.2]
          rw [show List.count '%' "(".data = 0 from rfl,
              show List.count '%' ")".data = 0 from rfl]
          omega

theorem where_parity (cl : List Condition) (kw : String) (d : Dialect)
    (t : String) (p : List Value) (hcl : whereOKb cl = true)
    (hkw : '%' ∉ kw.data)
    (hok : build_where_clause cl kw d = .ok (t, p)) :
    phOK t.data = true ∧ t.data.count '%' = p.length := by
  unfold build_where_clause at hok
  by_cases hemp : cl.isEmpty
  · rw [if_pos hemp] at hok
    simp at hok
    obtain ⟨ht, hp⟩ := hok
    subst ht
    subst hp
    exact ⟨rfl, rfl⟩
  · rw [if_neg hemp] at hok
    cases hg : buildGroupStrs cl d with
    | error e => rw [hg] at hok; simp [Bind.bind, Except.bind] at hok
    | ok gs =>
      rw [hg] at hok
      simp [Bind.bind, Except.bind] at hok
      obtain ⟨ht, hp⟩ := hok
      subst ht
      subst hp
      have hstats := buildGroupStrs_stats cl d gs hg hcl
      have hjoin_ph : phOK (pyJoin " OR " gs).data = true :=
        pyJoin_phOK _ _ (by rfl) hstats.1
      have hjoin_cnt : (pyJoin " OR " gs).data.count '%' = (cl.map condContrib).sum := by
        rw [pyJoin_count _ _ (by decide), hstats.2]
      constructor
      · apply phOK_str_append
        · apply phOK_str_append
          · exact phOK_nopct _ hkw
          · rfl
        · exact hjoin_ph
      · rw [count_str_append, count_str_append, hjoin_cnt, count_nopct _ hkw,
            chainFlatten_len]
        rw [show List.count '%' " ".data = 0 from rfl]
        omega

theorem mapQuote_nopct (names : List String) (d : Dialect) (qs : List String)
    (hok : mapQuote names d = .ok qs) (h : ∀ x ∈ names, '%' ∉ x.data) :
    ∀ q ∈ qs, '%' ∉ q.data := by
  induction names generalizing qs with
  | nil =>
    unfold mapQuote at hok
    simp at hok
    subst hok
    simp
  | cons x rest ih =>
    unfold mapQuote at hok
    cases h1 : quote_identifier x d with
    | error e => rw [h1] at hok; simp [Bind.bind, Except.bind] at hok
    | ok q1 =>
      rw [h1] at hok
      cases h2 : mapQuote rest d with
      | error e => rw [h2] at hok; simp [Bind.bind, Except.bind] at hok
      | ok qs1 =>
        rw [h2] at hok
        simp [Bind.bind, Except.bind] at hok
        subst hok
        intro q hq
        rcases List.mem_cons.mp hq with rfl | hq2
        · exact quote_ok_nopct x d q h1 (h x (List.mem_cons_self _ _))
        · exact ih qs1 h2 (fun y hy => h y (List.mem_cons_of_mem _ hy)) q hq2

theorem select_clause_nopct (fl : List String) (d : Dialect) (sc : String)
    (hok : build_select_clause fl d = .ok sc) (h : ∀ x ∈ fl, '%' ∉ x.data) :
    '%' ∉ sc.data := by
  unfold build_select_clause at hok
  split at hok
  · simp at hok; subst hok; decide
  · cases hq : mapQuote fl d with
    | error e => rw [hq] at hok; simp [Bind.bind, Except.bind] at hok
    | ok qs =>
      rw [hq] at hok
      simp [Bind.bind, Except.bind] at hok
      subst hok
      apply nopct_str_append
      · decide
      · exact pyJoin_nopct _ _ (by decide) (mapQuote_nopct fl d qs hq h)

theorem from_clause_nopct (t : String) (d : Dialect) (fc : String)
    (hok : build_from_clause t d = .ok fc) (h : '%' ∉ t.data) :
    '%' ∉ fc.data := by
  unfold build_from_clause at hok
  cases hq : quote_identifier t d with
  | error e => rw [hq] at hok; simp [Bind.bind, Except.bind] at hok
  | ok q =>
    rw [hq] at hok
    simp [Bind.bind, Except.bind] at hok
    subst hok
    apply nopct_str_append
    · decide
    · exact quote_ok_nopct t d q hq h

theorem groupby_clause_nopct (g : List String) (d : Dialect) (gc : String)
    (hok : build_groupby_clause g d = .ok gc) (h : ∀ x ∈ g, '%' ∉ x.data) :
    '%' ∉ gc.data := by
  unfold build_groupby_clause at hok
  split at hok
  · simp at hok; subst hok; simp
  · cases hq : mapQuote g d with
    | error e => rw [hq] at hok; simp [Bind.bind, Except.bind] at hok
    | ok qs =>
      rw [hq] at hok
      simp [Bind.bind, Except.bind] at hok
      subst hok
      apply nopct_str_append
      · decide
      · exact pyJoin_nopct _ _ (by decide) (mapQuote_nopct g d qs hq h)

theorem orderby_ok_empty (ob : List String) (d : Dialect) (oc : String)
    (hok : build_orderby_clause ob d = .ok oc) : ob = [] ∧ oc = "" := by
  unfold build_orderby_clause at hok
  split at hok
  · simp at hok
    exact ⟨by assumption, hok.symm⟩
  · simp at hok

theorem limit_clause_nopct (L O : Int) (d : Dialect) :
    '%' ∉ (build_limit_clause L O d).data := by
  unfold build_limit_clause
  split
  · simp
  · split
    · apply nopct_str_append
      · apply nopct_str_append
        · apply nopct_str_append
          · decide
          · exact intRepr_nopct O
        · decide
      · exact intRepr_nopct L
    · apply nopct_str_append
      · apply nopct_str_append
        · apply nopct_str_append
          · decide
          · exact intRepr_nopct O
        · decide
      · exact intRepr_nopct L

theorem select_parity (t : String) (fl : List String) (w : List Condition)
    (g : List String) (hv : List Condition) (ob : List String) (L O : Int)
    (d : Dialect) (s : String) (p : List Value)
    (hok : build_select_stmt t fl w g hv ob L O d = .ok (s, p))
    (hw : whereOKb w = true) (hh : whereOKb hv = true) (ht : '%' ∉ t.data)
    (hfl : ∀ x ∈ fl, '%' ∉ x.data) (hg : ∀ x ∈ g, '%' ∉ x.data) :
    phOK s.data = true ∧ s.data.count '%' = p.length := by
  unfold build_select_stmt at hok
  cases h1 : build_where_clause w "WHERE" d with
  | error e => rw [h1] at hok; simp [Bind.bind, Except.bind] at hok
  | ok wp =>
    rw [h1] at hok
    cases h2 : build_having_clause hv d with
    | error e => rw [h2] at hok; simp [Bind.bind, Except.bind] at hok
    | ok hp =>
      rw [h2] at hok
      cases h3 : build_select_clause fl d with
      | error e => rw [h3] at hok; simp [Bind.bind, Except.bind] at hok
      | ok sc =>
        rw [h3] at hok
        cases h4 : build_from_clause t d with
        | error e => rw [h4] at hok; simp [Bind.bind, Except.bind] at hok
        | ok fc =>
          rw [h4] at hok
          cases h5 : build_groupby_clause g d with
          | error e => rw [h5] at hok; simp [Bind.bind, Except.bind] at hok
          | ok gc =>
            rw [h5] at hok
            cases h6 : build_orderby_clause ob d with
            | error e => rw [h6] at hok; simp [Bind.bind, Except.bind] at hok
            | ok oc =>
              rw [h6] at hok
              simp [Bind.bind, Except.bind] at hok
              obtain ⟨hs, hp2⟩ := hok
              subst hs
              subst hp2
              have hwst := where_parity w "WHERE" d wp.1 wp.2 hw (by decide)
                (by rw [h1])
              have hhst := where_parity hv "HAVING" d hp.1 hp.2 hh (by decide)
                (by rw [← h2]; rfl)
              have hscn := select_clause_nopct fl d sc h3 hfl
              have hfcn := from_clause_nopct t d fc h4 ht
              have hgcn := groupby_clause_nopct g d gc h5 hg
              have hocn := (orderby_ok_empty ob d oc h6).2
              have hlcn := limit_clause_nopct L O d
              subst hocn
              constructor
              · apply pyJoin_phOK _ _ (by rfl)
                intro x hx
                simp at hx
                rcases hx with rfl | rfl | rfl | rfl | rfl | rfl | rfl
                · exact phOK_nopct _ hscn
                · exact phOK_nopct _ hfcn
                · exact hwst.1
                · exact phOK_nopct _ hgcn
                · exact hhst.1
                · rfl
                · exact phOK_nopct _ hlcn
              · rw [pyJoin_count _ _ (by decide)]
                simp only [List.map_cons, List.map_nil, List.sum_cons,
                           List.sum_nil]
                rw [count_nopct _ hscn, count_nopct _ hfcn, count_nopct _ hgcn,
                    count_nopct _ hlcn, hwst.2, hhst.2]
                rw [show List.count '%' ("" : String).data = 0 from rfl]
                simp [List.length_append]

theorem phTuple_stats (sep : String) (n : Nat) (hsep : '%' ∉ sep.data) :
    phOK ("(" ++ pyJoin sep (List.replicate n "%s") ++ ")").data = true ∧
    ("(" ++ pyJoin sep (List.replicate n "%s") ++ ")").data.count '%' = n := by
  constructor
  · apply phOK_str_append
    · apply phOK_str_append
      · rfl
      · apply pyJoin_phOK _ _ (phOK_nopct _ hsep)
        intro s hs
        rw [List.eq_of_mem_replicate hs]
        rfl
    · rfl
  · rw [count_str_append, count_str_append, pyJoin_count _ _ hsep]
    rw [List.map_replicate, show List.count '%' "%s".data = 1 from rfl,
        List.sum_replicate]
    simp

theorem chainValues_len_of (rl : List Record) (k : Nat)
    (h : ∀ x ∈ rl, x.length = k) :
    (chainValues rl).length = rl.length * k := by
  induction rl with
  | nil => simp [chainValues]
  | cons r rest ih =>
    simp only [chainValues, List.length_append, List.length_map, List.length_cons]
    rw [h r (List.mem_cons_self _ _), ih (fun x hx => h x (List.mem_cons_of_mem _ hx))]
    ring

theorem sameLenB_forall (r : Record) (rest : List Record)
    (h : sameLenB (r :: rest) = true) : ∀ x ∈ r :: rest, x.length = r.length := by
  unfold sameLenB at h
  rw [List.all_eq_true] at h
  intro x hx
  rcases List.mem_cons.mp hx with rfl | hx2
  · rfl
  · have := h x hx2
    simpa using this

theorem insert_parity (t : String) (rl : List Record) (d : Dialect)
    (s : String) (p : List Value)
    (hok : build_insert_clause t rl d = .ok (s, p))
    (ht : '%' ∉ t.data) (hsl : sameLenB rl = true)
    (hf : ∀ x ∈ (rl.headD []).map Prod.fst, '%' ∉ x.data) :
    phOK s.data = true ∧ s.data.count '%' = p.length := by
  unfold build_insert_clause at hok
  cases hq : quote_identifier t d with
  | error e => rw [hq] at hok; simp [Bind.bind, Except.bind] at hok
  | ok qt =>
    rw [hq] at hok
    cases rl with
    | nil => simp [Bind.bind, Except.bind] at hok
    | cons first rest =>
      simp only [Bind.bind, Except.bind] at hok
      cases hqs : mapQuote (first.map Prod.fst) d with
      | error e => rw [hqs] at hok; simp [Bind.bind, Except.bind] at hok
      | ok qfields =>
        rw [hqs] at hok
        simp [Bind.bind, Except.bind] at hok
        obtain ⟨hs, hp⟩ := hok
        subst hs
        subst hp
        have hqtn : '%' ∉ qt.data := quote_ok_nopct t d qt hq ht
        have hqfn : ∀ q ∈ qfields, '%' ∉ q.data :=
          mapQuote_nopct _ d qfields hqs (by simpa using hf)
        have htup := phTuple_stats ", " first.length (by decide)
        have hlen := chainValues_len_of (first :: rest) first.length
          (sameLenB_forall first rest hsl)
        constructor
        · apply phOK_str_append
          · apply phOK_str_append
            · apply phOK_str_append
              · apply phOK_str_append
                · apply phOK_str_append
                  · rfl
                  · exact phOK_nopct _ hqtn
                · rfl
              · exact phOK_nopct _ (pyJoin_nopct _ _ (by decide) hqfn)
            · rfl
          · apply pyJoin_phOK _ _ (by rfl)
            intro x hx
            rw [List.eq_of_mem_replicate hx]
            exact htup.1
        · rw [count_str_append, count_str_append, count_str_append,
              count_str_append, count_str_append]
          rw [count_nopct _ hqtn,
              count_nopct _ (pyJoin_nopct _ _ (by decide) hqfn)]
          rw [pyJoin_count _ _ (by decide), List.map_replicate, htup.2,
              List.sum_replicate]
          rw [hlen]
          rw [show List.count '%' "INSERT INTO ".data = 0 from rfl,
              show List.count '%' "(".data = 0 from rfl,
              show List.count '%' ") VALUES ".data = 0 from rfl]
          simp [Nat.mul_comm]

theorem mapSetExprs_stats (patch : Record) (d : Dialect) (sets : List String)
    (hok : mapSetExprs patch d = .ok sets)
    (hf : ∀ x ∈ patch.map Prod.fst, '%' ∉ x.data) :
    (∀ s ∈ sets, phOK s.data = true ∧ s.data.count '%' = 1) ∧
    sets.length = patch.length := by
  induction patch generalizing sets with
  | nil =>
    unfold mapSetExprs at hok
    simp at hok
    subst hok
    simp
  | cons pv rest ih =>
    obtain ⟨f, v⟩ := pv
    unfold mapSetExprs at hok
    cases h1 : quote_identifier f d with
    | error e => rw [h1] at hok; simp [Bind.bind, Except.bind] at hok
    | ok q =>
      rw [h1] at hok
      cases h2 : mapSetExprs rest d with
      | error e => rw [h2] at hok; simp [Bind.bind, Except.bind] at hok
      | ok sets1 =>
        rw [h2] at hok
        simp [Bind.bind, Except.bind] at hok
        subst hok
        have hqn : '%' ∉ q.data :=
          quote_ok_nopct f d q h1 (by exact hf f (by simp))
        have hrest := ih sets1 h2 (fun x hx => hf x (by simp at hx ⊢; exact Or.inr hx))
        constructor
        · intro s hs
          rcases List.mem_cons.mp hs with rfl | hs2
          · constructor
            · exact phOK_str_append _ _ (phOK_nopct _ hqn) (by rfl)
            · rw [count_str_append, count_nopct _ hqn]
              rfl
          · exact hrest.1 s hs2
        · simp [hrest.2]

theorem update_parity (t : String) (patch : Record) (w : List Condition)
    (ob : List String) (L O : Int) (d : Dialect) (s : String) (p : List Value)
    (hok : build_update_stmt t patch w ob L O d = .ok (s, p))
    (hw : whereOKb w = true) (ht : '%' ∉ t.data)
    (hf : ∀ x ∈ patch.map Prod.fst, '%' ∉ x.data) :
    phOK s.data = true ∧ s.data.count '%' = p.length := by
  unfold build_update_stmt build_update_clause at hok
  cases hq : quote_identifier t d with
  | error e => rw [hq] at hok; simp [Bind.bind, Except.bind] at hok
  | ok qt =>
    rw [hq] at hok
    cases hse : mapSetExprs patch d with
    | error e => rw [hse] at hok; simp [Bind.bind, Except.bind] at hok
    | ok sets =>
      rw [hse] at hok
      cases h1 : build_where_clause w "WHERE" d with
      | error e => rw [h1] at hok; simp [Bind.bind, Except.bind] at hok
      | ok wp =>
        rw [h1] at hok
        cases h6 : build_orderby_clause ob d with
        | error e => rw [h6] at hok; simp [Bind.bind, Except.bind] at hok
        | ok oc =>
          rw [h6] at hok
          simp [Bind.bind, Except.bind] at hok
          obtain ⟨hs, hp2⟩ := hok
          subst hs
          subst hp2
          have hqtn : '%' ∉ qt.data := quote_ok_nopct t d qt hq ht
          have hsst := mapSetExprs_stats patch d sets hse hf
          have hwst := where_parity w "WHERE" d wp.1 wp.2 hw (by decide)
            (by rw [h1])
          have hocn := (orderby_ok_empty ob d oc h6).2
          have hlcn := limit_clause_nopct L O d
          subst hocn
          have hsets_ph : phOK (pyJoin ", " sets).data = true :=
            pyJoin_phOK _ _ (by rfl) (fun x hx => (hsst.1 x hx).1)
          have hsets_cnt : (pyJoin ", " sets).data.count '%' = patch.length := by
            rw [pyJoin_count _ _ (by decide)]
            rw [show (sets.map fun s => s.data.count '%') =
                  sets.map (fun _ => 1) from
                  List.map_congr_left (fun x hx => (hsst.1 x hx).2)]
            simp [hsst.2]
          have huc_ph : phOK ("UPDATE " ++ qt ++ " SET " ++ pyJoin ", " sets).data
              = true := by
            apply phOK_str_append
            · apply phOK_str_append
              · apply phOK_str_append
                · rfl
                · exact phOK_nopct _ hqtn
              · rfl
            · exact hsets_ph
          have huc_cnt : ("UPDATE " ++ qt ++ " SET " ++
              pyJoin ", " sets).data.count '%' = patch.length := by
            rw [count_str_append, count_str_append, count_str_append,
                count_nopct _ hqtn, hsets_cnt]
            rw [show List.count '%' "UPDATE ".data = 0 from rfl,
                show List.count '%' " SET ".data = 0 from rfl]
            omega
          constructor
          · apply pyJoin_phOK _ _ (by rfl)
            intro x hx
            simp at hx
            rcases hx with rfl | rfl | rfl | rfl
            · exact huc_ph
            · exact hwst.1
            · rfl
            · exact phOK_nopct _ hlcn
          · rw [pyJoin_count _ _ (by decide)]
            simp only [List.map_cons, List.map_nil, List.sum_cons, List.sum_nil]
            rw [huc_cnt, hwst.2, count_nopct _ hlcn]
            rw [show List.count '%' ("" : String).data = 0 from rfl]
            simp [List.length_append]

theorem delete_parity (t : String) (w : List Condition) (ob : List String)
    (L : Int) (d : Dialect) (s : String) (p : List Value)
    (hok : build_delete_stmt t w ob L d = .ok (s, p))
    (hw : whereOKb w = true) (ht : '%' ∉ t.data) :
    phOK s.data = true ∧ s.data.count '%' = p.length := by
  unfold build_delete_stmt at hok
  cases h1 : build_where_clause w "WHERE" d with
  | error e => rw [h1] at hok; simp [Bind.bind, Except.bind] at hok
  | ok wp =>
    rw [h1] at hok
    cases h4 : build_from_clause t d with
    | error e => rw [h4] at hok; simp [Bind.bind, Except.bind] at hok
    | ok fc =>
      rw [h4] at hok
      cases h6 : build_orderby_clause ob d with
      | error e => rw [h6] at hok; simp [Bind.bind, Except.bind] at hok
      | ok oc =>
        rw [h6] at hok
        simp [Bind.bind, Except.bind] at hok
        obtain ⟨hs, hp2⟩ := hok
        subst hs
        subst hp2
        have hwst := where_parity w "WHERE" d wp.1 wp.2 hw (by decide)
          (by rw [h1])
        have hfcn := from_clause_nopct t d fc h4 ht
        have hocn := (orderby_ok_empty ob d oc h6).2
        have hlcn := limit_clause_nopct L 0 d
        subst hocn
        constructor
        · apply pyJoin_phOK _ _ (by rfl)
          intro x hx
          simp at hx
          rcases hx with rfl | rfl | rfl | rfl | rfl
          · rfl
          · exact phOK_nopct _ hfcn
          · exact hwst.1
          · rfl
          · exact phOK_nopct _ hlcn
        · rw [pyJoin_count _ _ (by decide)]
          simp only [List.map_cons, List.map_nil, List.sum_cons, List.sum_nil]
          rw [count_nopct _ hfcn, hwst.2, count_nopct _ hlcn]
          rw [show List.count '%' "DELETE".data = 0 from rfl,
              show List.count '%' ("" : String).data = 0 from rfl]
          omega

theorem flatten_single_list (l : List Value) : flatten [Value.list l] 1 0 = l := by
  rw [flatten_cons_d1, flatten_nil_d1]
  simp

theorem where_single (k f op : String) (v : Value) (d : Dialect) (q ph kw : String)
    (hsp : splitPredicate k = some (f, op)) (hmem : op ∈ supported_operators)
    (hq : quote_identifier f d = .ok q)
    (hph : ph = (match v with
                 | Value.list l =>
                   if op = "in" ∨ op = "not in" then
                     "(" ++ pyJoin "," (List.replicate l.length "%s") ++ ")"
                   else "%s"
                 | _ => "%s")) :
    build_where_clause [[(k, v)]] kw d =
      .ok (kw ++ " (" ++ q ++ " " ++ op ++ " " ++ ph ++ ")", flatten [v] 1 0) := by
  have hbc : build_condition k v d = .ok (q ++ " " ++ op ++ " " ++ ph) := by
    unfold build_condition
    simp only [hsp]
    simp [hq, Bind.bind, Except.bind, validate_operator, hmem, hph]
  unfold build_where_clause
  rw [if_neg (by simp)]
  simp only [buildGroupStrs, mapConditions, hbc, Bind.bind, Except.bind,
             chainFlatten, pyJoin]
  simp only [Except.ok.injEq, Prod.mk.injEq]
  constructor
  · apply String.ext
    simp [String.data_append, List.append_assoc]
  · simp [flatten_nil_d1]

/-- C2: identifier quoting is dialect-dependent — standard and postgresql
wrap in double quotes, mysql in backticks, and mssql should wrap in square
brackets (`[orders]`). The current builder (`querybuilder.quote_identifier`)
implements the first three but raises `KeyError` for mssql, contradicting
`manager.py`'s own docstring, which lists mssql among the supported
dialects; the sibling `dbmanager.quote_identifier` implements all four as
the claim describes. This theorem records both behaviours at the
identifier `orders`. -/
theorem claim2 :
    quote_identifier "orders" .standard = .ok "\"orders\"" ∧
    quote_identifier "orders" .postgresql = .ok "\"orders\"" ∧
    quote_identifier "orders" .mysql = .ok "`orders`" ∧
    quote_identifier "orders" .mssql = .error .keyError ∧
    dsql.dbmanager.quote_identifier "orders" .standard = "\"orders\"" ∧
    dsql.dbmanager.quote_identifier "orders" .postgresql = "\"orders\"" ∧
    dsql.dbmanager.quote_identifier "orders" .mysql = "`orders`" ∧
    dsql.dbmanager.quote_identifier "orders" .mssql = "[orders]" :=
  ⟨rfl, rfl, rfl, rfl, rfl, rfl, rfl, rfl⟩

/-- C6: the claim says a leading minus on an ordering field renders as the
stripped, quoted name followed by DESC, and its absence as ASC. The
builder `querybuilder.build_orderby_clause` instead raises `NameError` on
every non-empty ordering specification, because its comprehension iterates
over the undefined name `order` instead of the `orderlist` parameter; the
older variant `dbmanager.build_order_expr` renders exactly what the claim
describes. -/
theorem claim6 :
    build_orderby_clause ["-name"] .standard = .error .nameError ∧
    build_orderby_clause ["name"] .standard = .error .nameError ∧
    build_orderby_clause ["-name", "age"] .mysql = .error .nameError ∧
    dsql.dbmanager.build_order_expr ["-name", "age"] .standard =
      .ok "ORDER BY \"name\" DESC, \"age\" ASC" :=
  ⟨rfl, rfl, rfl, rfl⟩

/-- C8: for every limit L and offset O, the pagination clause renders as
`OFFSET O LIMIT L` under postgresql and `LIMIT O, L` under every other
dialect when L is non-zero, and `limit = 0` suppresses the clause entirely
regardless of the offset. -/
theorem claim8 (L O : Int) (d : Dialect) :
    (L ≠ 0 → build_limit_clause L O d =
      (if d = .postgresql then "OFFSET " ++ toString O ++ " LIMIT " ++ toString L
       else "LIMIT " ++ toString O ++ ", " ++ toString L)) ∧
    (L = 0 → build_limit_clause L O d = "") := by
  constructor
  · intro hL
    unfold build_limit_clause
    rw [if_neg hL]
  · intro hL
    unfold build_limit_clause
    rw [if_pos hL]

/-- Witness for C8 at `limit=10, offset=5` (mysql, standard, postgresql)
and at `limit=0`. -/
theorem claim8_witness :
    build_limit_clause 10 5 .mysql = "LIMIT 5, 10" ∧
    build_limit_clause 10 5 .standard = "LIMIT 5, 10" ∧
    build_limit_clause 10 5 .postgresql = "OFFSET 5 LIMIT 10" ∧
    build_limit_clause 0 5 .mysql = "" := by
  refine ⟨?_, ?_, ?_, ?_⟩
  · have h := (claim8 10 5 .mysql).1 (by decide)
    simpa using h
  · have h := (claim8 10 5 .standard).1 (by decide)
    simpa using h
  · have h := (claim8 10 5 .postgresql).1 (by decide)
    simpa using h
  · exact (claim8 0 5 .mysql).2 rfl

/-- C9: for every WHERE/HAVING predicate whose operator is `in` or
`not in` and whose value is a list of length n, the builder renders a
parenthesized list of exactly n placeholders and splices the n elements
into the parameter sequence in place, in list order. -/
theorem claim9 (k f op : String) (l : List Value) (d : Dialect) (q kw : String)
    (hsp : splitPredicate k = some (f, op)) (hop : op = "in" ∨ op = "not in")
    (hq : quote_identifier f d = .ok q) :
    build_where_clause [[(k, Value.list l)]] kw d =
      .ok (kw ++ " (" ++ q ++ " " ++ op ++ " " ++
             ("(" ++ pyJoin "," (List.replicate l.length "%s") ++ ")") ++ ")",
           l) := by
  have hmem : op ∈ supported_operators := by
    rcases hop with rfl | rfl <;> decide
  have h := where_single k f op (Value.list l) d q _ kw hsp hmem hq rfl
  rw [h, flatten_single_list]
  simp [if_pos hop]

/-- Witness for C9: the predicate `{"id in": [2,3,4]}` yields the text
`WHERE ("id" in (%s,%s,%s))` with parameters `[2,3,4]`. -/
theorem claim9_witness :
    build_where_clause [[("id in", Value.list [Value.int 2, Value.int 3, Value.int 4])]]
        "WHERE" .standard =
      .ok ("WHERE (\"id\" in (%s,%s,%s))",
           [Value.int 2, Value.int 3, Value.int 4]) := by
  have h := claim9 "id in" "id" "in" [Value.int 2, Value.int 3, Value.int 4]
    .standard "\"id\"" "WHERE" rfl (Or.inl rfl) rfl
  simpa using h

open dsql.manager

theorem firstColumns_eq (rows : List (List Value)) (hd : List Value)
    (h : rows.map List.head? = hd.map some) : firstColumns rows = .ok hd := by
  induction rows generalizing hd with
  | nil =>
    cases hd with
    | nil => rfl
    | cons x xs => simp at h
  | cons r rest ih =>
    cases hd with
    | nil => simp at h
    | cons x xs =>
      simp at h
      obtain ⟨h1, h2⟩ := h
      cases r with
      | nil => simp at h1
      | cons v vr =>
        simp at h1
        subst h1
        unfold firstColumns
        rw [ih xs h2]
        rfl

theorem rangeInt_eq (a : Int) (n : Nat) :
    rangeInt a (a + n) = (List.range n).map (fun i : Nat => a + (i : Int)) := by
  unfold rangeInt
  rw [show a + (n : Int) - a = (n : Int) by ring, Int.toNat_natCast]

/-- C5: when the normalizer classifies an execution as an insert result:
under postgresql it returns the first-column values of the cursor's rows
in order; under mysql, with last-row id L and affected count N, it returns
`[L, L+1, ..., L+N-1]`; under every other dialect it returns
`[L-N, ..., L-1]`. -/
theorem claim5 (c : Cursor) (L : Int) (n : Nat) (hd : List Value) :
    (c.rows.map List.head? = hd.map some →
      handle_insert_response c .postgresql = .ok (.ids hd)) ∧
    (c.lastrowid = some L → c.rowcount = (n : Int) →
      handle_insert_response c .mysql =
        .ok (.ids ((List.range n).map (fun i : Nat => Value.int (L + (i : Int)))))) ∧
    (∀ d, d ≠ .postgresql → d ≠ .mysql →
      c.lastrowid = some L → c.rowcount = (n : Int) →
      handle_insert_response c d =
        .ok (.ids ((List.range n).map
              (fun i : Nat => Value.int (L - (n : Int) + (i : Int)))))) := by
  refine ⟨?_, ?_, ?_⟩
  · intro h
    unfold handle_insert_response
    rw [if_pos rfl]
    rw [firstColumns_eq c.rows hd h]
    rfl
  · intro hL hN
    unfold handle_insert_response
    rw [if_neg (by decide)]
    simp only [hL]
    simp only [if_true]
    rw [hN, rangeInt_eq, List.map_map]
    rfl
  · intro d hdp hdm hL hN
    unfold handle_insert_response
    rw [if_neg hdp]
    simp only [hL]
    rw [if_neg hdm, hN]
    rw [show rangeInt (L - n) L = rangeInt (L - n) ((L - n) + n) by
          rw [show (L - (n : Int)) + (n : Int) = L by ring]]
    rw [rangeInt_eq, List.map_map]
    rfl

/-- Witness for C5: `lastrowid=100, rowcount=3` gives `[100,101,102]` on
mysql and `[97,98,99]` on standard and mssql; postgresql collects the
first column of each RETURNING row. -/
theorem claim5_witness :
    handle_insert_response ⟨some 100, 3, false, []⟩ .mysql =
      .ok (.ids [Value.int 100, Value.int 101, Value.int 102]) ∧
    handle_insert_response ⟨some 100, 3, false, []⟩ .standard =
      .ok (.ids [Value.int 97, Value.int 98, Value.int 99]) ∧
    handle_insert_response ⟨some 100, 3, false, []⟩ .mssql =
      .ok (.ids [Value.int 97, Value.int 98, Value.int 99]) ∧
    handle_insert_response ⟨none, 2, false, [[Value.int 5], [Value.int 7, Value.str "x"]]⟩
        .postgresql =
      .ok (.ids [Value.int 5, Value.int 7]) := by
  refine ⟨?_, ?_, ?_, ?_⟩
  · have h := (claim5 ⟨some 100, 3, false, []⟩ 100 3 []).2.1 rfl rfl
    simpa using h
  · have h := (claim5 ⟨some 100, 3, false, []⟩ 100 3 []).2.2 .standard
      (by decide) (by decide) rfl rfl
    simpa using h
  · have h := (claim5 ⟨some 100, 3, false, []⟩ 100 3 []).2.2 .mssql
      (by decide) (by decide) rfl rfl
    simpa using h
  · have h := (claim5 ⟨none, 2, false, [[Value.int 5], [Value.int 7, Value.str "x"]]⟩
      0 0 [Value.int 5, Value.int 7]).1 (by simp)
    simpa using h

/-- C10: for every cursor whose last-row identifier is falsy (`None` or
`0`), `handle_response` never returns an insert-shaped result, even for an
INSERT: it returns the row iterator when column metadata is present and
the affected-row count otherwise — classification tests the truthiness of
the identifier, not the operation kind. -/
theorem claim10 (c : Cursor) (d : Dialect)
    (hfalsy : lastrowidTruthy c.lastrowid = false) :
    (c.description = true → handle_response c d = .ok (.rows c.rows)) ∧
    (c.description = false → handle_response c d = .ok (.count c.rowcount)) ∧
    (∀ l, handle_response c d ≠ .ok (.ids l)) := by
  unfold handle_response
  rw [hfalsy]
  refine ⟨?_, ?_, ?_⟩
  · intro h
    rw [h]
    rfl
  · intro h
    rw [h]
    rfl
  · intro l
    cases hD : c.description <;> simp [hD, handle_select_response, handle_other_response]

/-- Witness for C10: a cursor with `lastrowid = 0` and column metadata
yields a row result; one with `lastrowid = None` and no metadata yields
the affected-row count. -/
theorem claim10_witness :
    handle_response ⟨some 0, 7, true, [[Value.int 1]]⟩ .mysql =
      .ok (.rows [[Value.int 1]]) ∧
    handle_response ⟨none, 7, false, []⟩ .postgresql = .ok (.count 7) := by
  constructor
  · exact (claim10 ⟨some 0, 7, true, [[Value.int 1]]⟩ .mysql (by decide)).1 rfl
  · exact (claim10 ⟨none, 7, false, []⟩ .postgresql (by decide)).2.1 rfl

/-- C3 (amended): the claim said a list value used with a non-`in`
operator is passed through as a single opaque parameter. In the code
`flatten(condition.values(), depth=1)` splices every top-level list value
into the parameter stream regardless of the operator, while the text gets
only the single `%s` placeholder; the amended statement proves exactly
that behaviour for every valid non-`in` operator. -/
theorem claim3_amended (k f op : String) (l : List Value) (d : Dialect) (q kw : String)
    (hsp : splitPredicate k = some (f, op)) (hmem : op ∈ supported_operators)
    (hop : ¬(op = "in" ∨ op = "not in")) (hq : quote_identifier f d = .ok q) :
    build_where_clause [[(k, Value.list l)]] kw d =
      .ok (kw ++ " (" ++ q ++ " " ++ op ++ " " ++ "%s" ++ ")", l) := by
  have h := where_single k f op (Value.list l) d q _ kw hsp hmem hq rfl
  rw [h, flatten_single_list]
  simp [if_neg hop]

/-- Witness for the amended C3: `{"age =": [1,2]}` builds
`WHERE ("age" = %s)` with the two spliced parameters `[1, 2]`. -/
theorem claim3_amended_witness :
    build_where_clause [[("age =", Value.list [Value.int 1, Value.int 2])]]
        "WHERE" .standard =
      .ok ("WHERE (\"age\" = %s)", [Value.int 1, Value.int 2]) := by
  have h := claim3_amended "age =" "age" "=" [Value.int 1, Value.int 2] .standard
    "\"age\"" "WHERE" rfl (by decide) (by decide) rfl
  simpa using h

/-- Counterexample to C3 as stated: for the non-`in` predicate
`{"age =": [1,2]}` the built parameter sequence is the two spliced
elements `[1, 2]` — not the single opaque list parameter the claim
requires. -/
theorem claim3_counterexample :
    build_where_clause [[("age =", Value.list [Value.int 1, Value.int 2])]]
        "WHERE" .standard =
      .ok ("WHERE (\"age\" = %s)", [Value.int 1, Value.int 2]) ∧
    ([Value.int 1, Value.int 2] : List Value).length = 2 ∧
    ([Value.int 1, Value.int 2] : List Value) ≠
      [Value.list [Value.int 1, Value.int 2]] := by
  refine ⟨?_, rfl, by simp⟩
  have h := where_single "age =" "age" "="
    (Value.list [Value.int 1, Value.int 2]) .standard "\"age\"" _ "WHERE"
    rfl (by decide) rfl rfl
  rw [flatten_single_list] at h
  rw [h]
  rfl

theorem quote_total_of_ne_mssql (i : String) (d : Dialect) (hd : d ≠ .mssql) :
    ∃ q, quote_identifier i d = .ok q := by
  cases d with
  | standard => exact ⟨_, rfl⟩
  | postgresql => exact ⟨_, rfl⟩
  | mysql => exact ⟨_, rfl⟩
  | mssql => exact absurd rfl hd

theorem mapQuote_total_of_ne_mssql (names : List String) (d : Dialect)
    (hd : d ≠ .mssql) : ∃ qs, mapQuote names d = .ok qs := by
  induction names with
  | nil => exact ⟨[], rfl⟩
  | cons x rest ih =>
    obtain ⟨q, hq⟩ := quote_total_of_ne_mssql x d hd
    obtain ⟨qs, hqs⟩ := ih
    refine ⟨q :: qs, ?_⟩
    unfold mapQuote
    rw [hq, hqs]
    rfl

/-- C4 (amended): the column list of a multi-row INSERT is derived from
the first record alone, and no cross-record validation exists: for any
first record and any tail records whatsoever the builder succeeds (on a
quotable dialect) with every record's values spliced positionally, and the
statement text is unchanged when the tail records are replaced by any
other records of equal number — no ValidationError is ever raised. -/
theorem claim4_amended :
    (∀ (t : String) (d : Dialect) (r1 : Record) (rest : List Record),
      d ≠ .mssql →
      ∃ s, build_insert_clause t (r1 :: rest) d =
        .ok (s, chainValues (r1 :: rest))) ∧
    (∀ (t : String) (d : Dialect) (r1 : Record) (rest rest2 : List Record),
      d ≠ .mssql → rest2.length = rest.length →
      (build_insert_clause t (r1 :: rest) d).map Prod.fst =
        (build_insert_clause t (r1 :: rest2) d).map Prod.fst) := by
  constructor
  · intro t d r1 rest hd
    obtain ⟨qt, hqt⟩ := quote_total_of_ne_mssql t d hd
    obtain ⟨qs, hqs⟩ := mapQuote_total_of_ne_mssql (r1.map Prod.fst) d hd
    refine ⟨"INSERT INTO " ++ qt ++ "(" ++ pyJoin ", " qs ++ ") VALUES " ++
              pyJoin ", " (List.replicate (r1 :: rest).length
                ("(" ++ pyJoin ", " (List.replicate r1.length "%s") ++ ")")), ?_⟩
    unfold build_insert_clause
    rw [hqt]
    simp only [Bind.bind, Except.bind]
    rw [hqs]
  · intro t d r1 rest rest2 hd hl
    obtain ⟨qt, hqt⟩ := quote_total_of_ne_mssql t d hd
    obtain ⟨qs, hqs⟩ := mapQuote_total_of_ne_mssql (r1.map Prod.fst) d hd
    unfold build_insert_clause
    rw [hqt]
    simp only [Bind.bind, Except.bind]
    rw [hqs]
    simp only [List.length_cons, hl]
    rfl

/-- Witness for the amended C4: replacing the mismatched second record
`{age: 2}` by `{name: "b"}` leaves the generated text unchanged. -/
theorem claim4_amended_witness :
    (build_insert_clause "t" [[("name", Value.str "a")], [("age", Value.int 2)]]
        .standard).map Prod.fst =
      (build_insert_clause "t" [[("name", Value.str "a")], [("name", Value.str "b")]]
        .standard).map Prod.fst := by
  exact claim4_amended.2 "t" .standard [("name", Value.str "a")]
    [[("age", Value.int 2)]] [[("name", Value.str "b")]] (by decide) rfl

/-- Counterexample to C4 as stated: the mismatched record set
`[{name: "a"}, {age: 2}]` does not raise — the builder happily emits an
INSERT with the first record's single column and both records' values. -/
theorem claim4_counterexample :
    build_insert_clause "t" [[("name", Value.str "a")], [("age", Value.int 2)]]
        .standard =
      .ok ("INSERT INTO \"t\"(\"name\") VALUES (%s), (%s)",
           [Value.str "a", Value.int 2]) := rfl

/-- Counterexample to C1 as stated: the select built from the non-`in`
list predicate `{"age =": [1,2]}` has exactly one `%s` placeholder in its
text but two parameters. -/
theorem claim1_counterexample :
    build_select_stmt "t" [] [[("age =", Value.list [Value.int 1, Value.int 2])]]
        [] [] [] 0 0 .standard =
      .ok ("SELECT * FROM \"t\" WHERE (\"age\" = %s)    ",
           [Value.int 1, Value.int 2]) ∧
    countPH "SELECT * FROM \"t\" WHERE (\"age\" = %s)    " = 1 ∧
    ([Value.int 1, Value.int 2] : List Value).length = 2 := by
  refine ⟨?_, rfl, rfl⟩
  have hW : build_where_clause [[("age =", Value.list [Value.int 1, Value.int 2])]]
      "WHERE" .standard = .ok ("WHERE (\"age\" = %s)", [Value.int 1, Value.int 2]) := by
    have h := where_single "age =" "age" "="
      (Value.list [Value.int 1, Value.int 2]) .standard "\"age\"" _ "WHERE"
      rfl (by decide) rfl rfl
    rw [flatten_single_list] at h
    rw [h]
    rfl
  unfold build_select_stmt
  rw [hW]
  simp only [Bind.bind, Except.bind]
  rfl

/-- C1 (amended): placeholder/parameter parity holds for select, insert,
update and delete statements provided every list value is used with an
`in`/`not in` operator (`whereOKb`), all insert records have as many
fields as the first (`sameLenB`), and identifiers carry no `%` character;
raw returns its input pair unchanged, so its parity is whatever the caller
supplied. Binding is strictly positional: the placeholder count of the
emitted text equals the parameter count. -/
theorem claim1_amended :
    (∀ (t : String) (fl : List String) (w : List Condition) (g : List String)
        (hv : List Condition) (ob : List String) (L O : Int) (d : Dialect)
        (s : String) (p : List Value),
      build_select_stmt t fl w g hv ob L O d = .ok (s, p) →
      whereOKb w = true → whereOKb hv = true → '%' ∉ t.data →
      (∀ x ∈ fl, '%' ∉ x.data) → (∀ x ∈ g, '%' ∉ x.data) →
      countPH s = p.length) ∧
    (∀ (t : String) (rl : List Record) (d : Dialect) (s : String) (p : List Value),
      build_insert_stmt t rl d = .ok (s, p) →
      sameLenB rl = true → '%' ∉ t.data →
      (∀ x ∈ (rl.headD []).map Prod.fst, '%' ∉ x.data) →
      countPH s = p.length) ∧
    (∀ (t : String) (patch : Record) (w : List Condition) (ob : List String)
        (L O : Int) (d : Dialect) (s : String) (p : List Value),
      build_update_stmt t patch w ob L O d = .ok (s, p) →
      whereOKb w = true → '%' ∉ t.data →
      (∀ x ∈ patch.map Prod.fst, '%' ∉ x.data) →
      countPH s = p.length) ∧
    (∀ (t : String) (w : List Condition) (ob : List String) (L : Int)
        (d : Dialect) (s : String) (p : List Value),
      build_delete_stmt t w ob L d = .ok (s, p) →
      whereOKb w = true → '%' ∉ t.data →
      countPH s = p.length) ∧
    (∀ (s : String) (p : List Value) (d : Dialect), build_raw_stmt s p d = (s, p)) := by
  refine ⟨?_, ?_, ?_, ?_, fun s p d => rfl⟩
  · intro t fl w g hv ob L O d s p hok hw hh ht hfl hg
    have hst := select_parity t fl w g hv ob L O d s p hok hw hh ht hfl hg
    unfold countPH
    rw [phOK_count _ hst.1, hst.2]
  · intro t rl d s p hok hsl ht hf
    unfold build_insert_stmt at hok
    cases hic : build_insert_clause t rl d with
    | error e => rw [hic] at hok; simp [Bind.bind, Except.bind] at hok
    | ok pair =>
      rw [hic] at hok
      simp [Bind.bind, Except.bind] at hok
      obtain ⟨hs, hp⟩ := hok
      have hst := insert_parity t rl d pair.1 pair.2 (by rw [hic]) ht hsl hf
      subst hp
      by_cases hd : d = .postgresql
      · rw [if_pos hd] at hs
        subst hs
        unfold countPH
        rw [phOK_count _ (phOK_str_append _ _ hst.1 (by rfl)),
            count_str_append, hst.2,
            show List.count '%' " returning id".data = 0 from rfl]
        omega
      · rw [if_neg hd] at hs
        subst hs
        unfold countPH
        rw [phOK_count _ hst.1, hst.2]
  · intro t patch w ob L O d s p hok hw ht hf
    have hst := update_parity t patch w ob L O d s p hok hw ht hf
    unfold countPH
    rw [phOK_count _ hst.1, hst.2]
  · intro t w ob L d s p hok hw ht
    have hst := delete_parity t w ob L d s p hok hw ht
    unfold countPH
    rw [phOK_count _ hst.1, hst.2]

/-- Witness for the amended C1: the select built from
`{"id in": [2,3]}` has two placeholders and two parameters. -/
theorem claim1_amended_witness :
    countPH "SELECT * FROM \"t\" WHERE (\"id\" in (%s,%s))    " =
      ([Value.int 2, Value.int 3] : List Value).length := by
  have hW : build_where_clause [[("id in", Value.list [Value.int 2, Value.int 3])]]
      "WHERE" .standard =
      .ok ("WHERE (\"id\" in (%s,%s))", [Value.int 2, Value.int 3]) := by
    have h := where_single "id in" "id" "in"
      (Value.list [Value.int 2, Value.int 3]) .standard "\"id\"" _ "WHERE"
      rfl (by decide) rfl rfl
    rw [flatten_single_list] at h
    rw [h]
    rfl
  have hok : build_select_stmt "t" []
      [[("id in", Value.list [Value.int 2, Value.int 3])]] [] [] [] 0 0 .standard =
      .ok ("SELECT * FROM \"t\" WHERE (\"id\" in (%s,%s))    ",
           [Value.int 2, Value.int 3]) := by
    unfold build_select_stmt
    rw [hW]
    simp only [Bind.bind, Except.bind]
    rfl
  exact claim1_amended.1 "t" [] [[("id in", Value.list [Value.int 2, Value.int 3])]]
    [] [] [] 0 0 .standard _ _ hok (by decide) (by decide) (by decide)
    (by simp) (by simp)

/-- Counterexample to C7 as stated: with every optional clause absent the
built text is `SELECT * FROM "t"` followed by five stray spaces — omitted
clauses do not collapse cleanly. -/
theorem claim7_counterexample :
    build_select_stmt "t" [] [] [] [] [] 0 0 .standard =
      .ok ("SELECT * FROM \"t\"     ", []) ∧
    "SELECT * FROM \"t\"     " ≠ "SELECT * FROM \"t\"" := by
  constructor
  · rfl
  · decide

/-- C7 (amended): for every combination of present/absent WHERE, GROUP
BY, HAVING and LIMIT clauses (ORDER BY must be absent — a non-empty
ordering makes the whole build raise `NameError`, second conjunct), the
non-empty clauses appear in the fixed order WHERE, GROUP BY, HAVING,
ORDER BY, LIMIT; but every clause slot keeps its separating space even
when empty, so each omission leaves duplicate/stray whitespace instead of
collapsing cleanly. -/
theorem claim7_amended :
    (∀ w g h l : Bool,
      build_select_stmt "t" [] (cond w [[("a =", Value.int 1)]] [])
          (cond g ["grp"] []) (cond h [[("b >", Value.int 2)]] []) []
          (cond l 10 0) 5 .standard =
        .ok ("SELECT *" ++ " " ++ "FROM \"t\"" ++ " " ++
               cond w "WHERE (\"a\" = %s)" "" ++ " " ++
               cond g "GROUP BY \"grp\"" "" ++ " " ++
               cond h "HAVING (\"b\" > %s)" "" ++ " " ++ "" ++ " " ++
               cond l "LIMIT 5, 10" "",
             cond w [Value.int 1] [] ++ cond h [Value.int 2] [])) ∧
    (∀ w g h l : Bool,
      build_select_stmt "t" [] (cond w [[("a =", Value.int 1)]] [])
          (cond g ["grp"] []) (cond h [[("b >", Value.int 2)]] []) ["-x"]
          (cond l 10 0) 5 .standard = .error .nameError) := by
  have hW : build_where_clause [[("a =", Value.int 1)]] "WHERE" .standard =
      .ok ("WHERE (\"a\" = %s)", [Value.int 1]) := by
    have hs := where_single "a =" "a" "=" (Value.int 1) .standard "\"a\"" _ "WHERE"
      rfl (by decide) rfl rfl
    rw [flatten_cons_d1, flatten_nil_d1] at hs
    rw [hs]
    rfl
  have hH : build_where_clause [[("b >", Value.int 2)]] "HAVING" .standard =
      .ok ("HAVING (\"b\" > %s)", [Value.int 2]) := by
    have hs := where_single "b >" "b" ">" (Value.int 2) .standard "\"b\"" _ "HAVING"
      rfl (by decide) rfl rfl
    rw [flatten_cons_d1, flatten_nil_d1] at hs
    rw [hs]
    rfl
  constructor
  · intro w g h l
    rcases w <;> rcases g <;> rcases h <;> rcases l <;>
      (unfold build_select_stmt
       simp only [cond_true, cond_false, build_having_clause, hW, hH,
                  Bind.bind, Except.bind]) <;>
      rfl
  · intro w g h l
    rcases w <;> rcases g <;> rcases h <;> rcases l <;>
      (unfold build_select_stmt
       simp only [cond_true, cond_false, build_having_clause, hW, hH,
                  Bind.bind, Except.bind]) <;>
      rfl
